import Mathlib

/-!
# A verified model of `scrapy_mongodb.py`

This file gives a shallow embedding of the buffered MongoDB insertion
pipeline implemented in `src/scrapy_mongodb.py` (class `MongoDBPipeline`)
and proves properties of its configuration resolution, record shaping,
buffering, collection routing, index assurance, duplicate-key handling and
upsert logic.

Modelling conventions:
* Python values that flow through the settings / config dictionaries are
  modelled by the inductive type `PyVal`; Python truthiness and the
  source's `not_set` helper are modelled on it.
* A serialized item (an insertion-ordered Python dict) is modelled as an
  association list `Record` of field name / value pairs.
* The mutable attributes of the pipeline object (`collections`,
  `created_index`, `current_item`, `item_buffer`, `duplicate_key_count`)
  become the fields of an explicit state `PState` threaded through the
  operations; the immutable post-`configure` options the operations read
  (`buffer`, `unique_key`, `separate_collections`, `collection`,
  `append_timestamp`) become a `Config` parameter.
* Calls into the MongoDB driver (`insert_one`, `insert_many`,
  `update_one`, index creation) and into the crawler engine
  (`close_spider`) are recorded as an `Event` trace in the state; whether
  a driver insert raises `DuplicateKeyError` is an input (`dup`) of the
  modelled operation, since it depends on the store contents.
* A raised Python exception is modelled as an `Option PyErr` paired with
  the state at the moment of the raise (Python exceptions leave all
  mutations performed so far in place).
-/

namespace ScrapyMongo

/-- A MongoDB document value, as far as the pipeline inspects it: the
pipeline only ever compares values against `None` and the empty string
(line 176) and injects one timestamp sub-document (line 179), so `Value`
distinguishes `None`, strings, integers and the timestamp sub-document
`\x7b'ts': datetime.datetime.utcnow()\x7d` (modelled as `vTs` carrying an
abstract clock reading). -/
inductive Value where
  | vNone : Value
  | vStr : String → Value
  | vInt : Int → Value
  | vTs : Nat → Value
deriving DecidableEq, Repr

/-- A serialized item: an insertion-ordered mapping from field name to
value, modelled as an association list (Python dicts preserve insertion
order). -/
abbrev Record := List (String × Value)

/-- Python dict lookup `d.get(k)` / `d[k]` on a `Record`. -/
def dictGet (r : Record) (k : String) : Option Value :=
  match r with
  | [] => none
  | (k', v) :: rest => if k' = k then some v else dictGet rest k

/-- Python dict assignment `d[k] = v`: replaces the value in place if the
key is present (keeping its position), otherwise appends the new pair. -/
def dictSet (r : Record) (k : String) (v : Value) : Record :=
  match r with
  | [] => [(k, v)]
  | (k', v') :: rest =>
      if k' = k then (k', v) :: rest else (k', v') :: dictSet rest k v

/-- A Python value as stored in the `settings` / `config` dictionaries of
the source: `None`, a string, an integer, a boolean, or a list of strings
(the only list shape the pipeline ever stores there is the multi-field
`MONGODB_UNIQUE_KEY`). -/
inductive PyVal where
  | pyNone : PyVal
  | pyStr : String → PyVal
  | pyInt : Int → PyVal
  | pyBool : Bool → PyVal
  | pyList : List String → PyVal
deriving DecidableEq, Repr

/-- Python truthiness of a `PyVal` (`if value:`). -/
def truthy : PyVal → Bool
  | .pyNone => false
  | .pyStr s => s ≠ ""
  | .pyInt n => n ≠ 0
  | .pyBool b => b
  | .pyList xs => xs ≠ []

/-- `not_set` (lines 13-22): true iff the value is `None` or `''`. -/
def not_set : PyVal → Bool
  | .pyNone => true
  | .pyStr s => s = ""
  | _ => false

/-- The Scrapy settings consulted by `configure` (lines 138-150), one
`PyVal` per recognized option; an option absent from the settings reads as
`None`.  The deprecated `MONGODB_HOST` / `MONGODB_PORT` /
`MONGODB_REPLICA_SET_HOSTS` translation (lines 113-135) only rewrites the
`uri` entry and is outside every claim, so those three settings are not
part of the modelled surface. -/
structure Settings where
  mongodb_uri : PyVal := .pyNone
  mongodb_fsync : PyVal := .pyNone
  mongodb_replica_set_w : PyVal := .pyNone
  mongodb_database : PyVal := .pyNone
  mongodb_collection : PyVal := .pyNone
  mongodb_separate_collections : PyVal := .pyNone
  mongodb_replica_set : PyVal := .pyNone
  mongodb_unique_key : PyVal := .pyNone
  mongodb_buffer_data : PyVal := .pyNone
  mongodb_add_timestamp : PyVal := .pyNone
  mongodb_stop_on_duplicate : PyVal := .pyNone
deriving Repr

/-- The `config` dictionary after `configure` has run, one `PyVal` per
key; the default field values are the class-level defaults of lines
29-41. -/
structure RawConfig where
  uri : PyVal := .pyStr "mongodb://localhost:27017"
  fsync : PyVal := .pyBool false
  write_concern : PyVal := .pyInt 0
  database : PyVal := .pyStr "scrapy-mongodb"
  collection : PyVal := .pyStr "items"
  separate_collections : PyVal := .pyBool false
  replica_set : PyVal := .pyNone
  unique_key : PyVal := .pyNone
  buffer : PyVal := .pyNone
  append_timestamp : PyVal := .pyBool false
  stop_on_duplicate : PyVal := .pyInt 0
deriving DecidableEq, Repr

/-- One iteration of the options loop (lines 152-154): the setting
overrides the default unless it is `not_set`. -/
def setOpt (dflt v : PyVal) : PyVal :=
  if not_set v then dflt else v

/-- The merged `config` dictionary produced by the options loop of
`configure` (lines 137-154), before the illegal-configuration check. -/
def mergeSettings (s : Settings) : RawConfig where
  uri := setOpt (RawConfig.uri {}) s.mongodb_uri
  fsync := setOpt (RawConfig.fsync {}) s.mongodb_fsync
  write_concern := setOpt (RawConfig.write_concern {}) s.mongodb_replica_set_w
  database := setOpt (RawConfig.database {}) s.mongodb_database
  collection := setOpt (RawConfig.collection {}) s.mongodb_collection
  separate_collections :=
    setOpt (RawConfig.separate_collections {}) s.mongodb_separate_collections
  replica_set := setOpt (RawConfig.replica_set {}) s.mongodb_replica_set
  unique_key := setOpt (RawConfig.unique_key {}) s.mongodb_unique_key
  buffer := setOpt (RawConfig.buffer {}) s.mongodb_buffer_data
  append_timestamp :=
    setOpt (RawConfig.append_timestamp {}) s.mongodb_add_timestamp
  stop_on_duplicate :=
    setOpt (RawConfig.stop_on_duplicate {}) s.mongodb_stop_on_duplicate

/-- The error raised by `configure`: `SyntaxError` with the
`IllegalConfig` message (lines 156-163). -/
inductive ConfigError where
  | illegalConfig : ConfigError
deriving DecidableEq, Repr

/-- `configure` (lines 110-163): merge the settings into the config, then
fail if both `buffer` and `unique_key` are truthy. -/
def configure (s : Settings) : Except ConfigError RawConfig :=
  let c := mergeSettings s
  if truthy c.buffer && truthy c.unique_key then
    .error .illegalConfig
  else
    .ok c

/-- The `unique_key` option as the pipeline code distinguishes it at lines
257-258 and 317-320: either a single field name or a list of field
names. -/
inductive UKey where
  | single : String → UKey
  | multi : List String → UKey
deriving DecidableEq, Repr

/-- Python truthiness of the `unique_key` config entry
(`if self.config['unique_key']`, line 316). -/
def ukTruthy : Option UKey → Bool
  | none => false
  | some (.single s) => s ≠ ""
  | some (.multi ks) => ks ≠ []

/-- Typed view of the `config` entries read by the per-record pipeline
operations (`process_item`, `insert_item`, `get_collection`); built once
by `configure` and immutable afterwards. -/
structure Config where
  collection : String := "items"
  separate_collections : Bool := false
  unique_key : Option UKey := none
  buffer : Option Int := none
  append_timestamp : Bool := false
deriving Repr

/-- A collection handle `self.database[name]`: one physical destination,
identified by its collection name (the database is fixed per pipeline). -/
structure Handle where
  name : String
deriving DecidableEq, Repr

/-- One observable interaction with the MongoDB driver or the crawler
engine, in program order. -/
inductive Event where
  | insertOneW : String → Record → Event
  | insertManyW : String → List Record → Event
  | updateOneW : String → Record → Record → Event
  | createIndexW : String → UKey → Event
  | closeSpiderSig : String → Event
deriving DecidableEq, Repr

/-- A Python exception escaping a pipeline method: `KeyError` from
`item[k]` (line 261) or `AssertionError` from line 313. -/
inductive PyErr where
  | keyError : String → PyErr
  | assertionError : PyErr
deriving DecidableEq, Repr

/-- The mutable attributes of the pipeline object, plus the trace of
driver / engine calls issued so far. -/
structure PState where
  collections : List (String × Handle)
  created_index : Bool
  current_item : Int
  item_buffer : List Record
  duplicate_key_count : Int
  stop_on_duplicate : Int
  events : List Event
deriving DecidableEq, Repr

/-- `self.collections.get(name)` (lines 303, 310). -/
def handleGet (m : List (String × Handle)) (k : String) : Option Handle :=
  match m with
  | [] => none
  | (k', h) :: rest => if k' = k then some h else handleGet rest k

/-- The pipeline state right after `open_spider` (lines 64-108):
`self.collections` holds the default collection under the key
`'default'` (line 86), the index flag is unset (line 54), buffer and
counters are at their class defaults (lines 44-48), and
`self.stop_on_duplicate` carries the resolved threshold (lines 92-108;
`open_spider` rejects a negative threshold and maps a falsy setting to
`0`, so the resolved value is always ≥ 0). -/
def initState (cfg : Config) (stopOnDup : Int) : PState where
  collections := [("default", ⟨cfg.collection⟩)]
  created_index := false
  current_item := 0
  item_buffer := []
  duplicate_key_count := 0
  stop_on_duplicate := stopOnDup
  events := []

/-- `get_collection` (lines 301-324).  With separate collections the
handle cached under the spider name is returned, a new handle named after
the spider being created and cached on a miss (`if not collection:` tests
the `dict.get` result against `None`); otherwise the handle cached under
`'default'` is returned and the reported name is the configured default
collection name.  Before returning, a uniqueness index is created on the
resolved handle if a unique key is configured and the per-pipeline
`created_index` flag is still unset (lines 316-323). -/
def get_collection (cfg : Config) (st : PState) (name : String) :
    PState × Except PyErr (String × Handle) :=
  let step1 :=
    if cfg.separate_collections then
      match handleGet st.collections name with
      | some c => (st, name, some c)
      | none =>
          let c : Handle := ⟨name⟩
          ({ st with collections := st.collections ++ [(name, c)] }, name, some c)
    else
      (st, cfg.collection, handleGet st.collections "default")
  match step1 with
  | (st1, _, none) => (st1, .error .assertionError)
  | (st1, collection_name, some collection) =>
      if ukTruthy cfg.unique_key && !st1.created_index then
        match cfg.unique_key with
        | some uk =>
            ({ st1 with
                 created_index := true
                 events := st1.events ++ [.createIndexW collection.name uk] },
             .ok (collection_name, collection))
        | none => (st1, .ok (collection_name, collection))
      else (st1, .ok (collection_name, collection))

/-- The `except errors.DuplicateKeyError` handler shared by `_insert_one`
(lines 243-251) and `_insert_many` (lines 286-294): when the stop
threshold is positive, count the rejection and, once the count reaches the
threshold, ask the crawler engine to close the spider with the fixed
reason string of lines 248-251. -/
def on_duplicate_key (st : PState) : PState :=
  if st.stop_on_duplicate > 0 then
    let st1 := { st with duplicate_key_count := st.duplicate_key_count + 1 }
    if st1.duplicate_key_count ≥ st1.stop_on_duplicate then
      { st1 with events := st1.events ++
          [.closeSpiderSig "Number of duplicate key insertion exceeded"] }
    else st1
  else st

/-- The field list iterated by the upsert filter loop (lines 257-260):
the single key is wrapped into a one-element list, and `set(...)`
collapses duplicates (Python's set iteration order is unspecified;
first-occurrence order stands in for it — which keys are present does not
depend on the order). -/
def ukFields : UKey → List String
  | .single s => [s].eraseDups
  | .multi ks => ks.eraseDups

/-- The filter-building loop `for k in set(unique_key): filter[k] =
item[k]` (lines 260-261): each key field is looked up in the item,
raising `KeyError` at the first absent field. -/
def buildFilter (item : Record) : List String → Except String Record
  | [] => .ok []
  | k :: ks =>
      match dictGet item k with
      | none => .error k
      | some v =>
          match buildFilter item ks with
          | .error k' => .error k'
          | .ok rest => .ok ((k, v) :: rest)

/-- `_insert_one` (lines 225-266).  Without a unique key, a plain
`insert_one` is attempted; `dup` tells whether the store raised
`DuplicateKeyError`, which is caught and routed to `on_duplicate_key`.
With a unique key, the filter is built from the item's key fields and an
`update_one(filter, set-document, upsert=True)` is issued. -/
def insert_one (cfg : Config) (st : PState) (item : Record)
    (spiderName : String) (dup : Bool) : PState × Option PyErr :=
  match get_collection cfg st spiderName with
  | (st1, .error e) => (st1, some e)
  | (st1, .ok (_, collection)) =>
      match cfg.unique_key with
      | none =>
          let st2 := { st1 with
            events := st1.events ++ [.insertOneW collection.name item] }
          if dup then (on_duplicate_key st2, none) else (st2, none)
      | some uk =>
          match buildFilter item (ukFields uk) with
          | .error k => (st1, some (.keyError k))
          | .ok filt =>
              ({ st1 with events :=
                   st1.events ++ [.updateOneW collection.name filt item] },
               none)

/-- The fallback loop of `_insert_many` (lines 298-299): `_insert_one` on
each item in order, stopping at the first escaping exception. -/
def insert_one_each (cfg : Config) (st : PState) (items : List Record)
    (spiderName : String) (dup : Bool) : PState × Option PyErr :=
  match items with
  | [] => (st, none)
  | item :: rest =>
      match insert_one cfg st item spiderName dup with
      | (st1, none) => insert_one_each cfg st1 rest spiderName dup
      | (st1, some e) => (st1, some e)

/-- `_insert_many` (lines 268-299).  Without a unique key, a batch
`insert_many` is attempted, with the same `DuplicateKeyError` handling as
`_insert_one`; with a unique key configured, the batch degrades to
`_insert_one` per item (lines 296-299). -/
def insert_many (cfg : Config) (st : PState) (items : List Record)
    (spiderName : String) (dup : Bool) : PState × Option PyErr :=
  match get_collection cfg st spiderName with
  | (st1, .error e) => (st1, some e)
  | (st1, .ok (_, collection)) =>
      match cfg.unique_key with
      | none =>
          let st2 := { st1 with
            events := st1.events ++ [.insertManyW collection.name items] }
          if dup then (on_duplicate_key st2, none) else (st2, none)
      | some _ => insert_one_each cfg st1 items spiderName dup

/-- The duck-typed argument of `insert_item` (line 220): a single item or
a list of items. -/
inductive ItemOrList where
  | one : Record → ItemOrList
  | many : List Record → ItemOrList
deriving DecidableEq, Repr

/-- `insert_item` (lines 210-223): dispatch on the argument's shape. -/
def insert_item (cfg : Config) (st : PState) (arg : ItemOrList)
    (spiderName : String) (dup : Bool) : PState × Option PyErr :=
  match arg with
  | .many items => insert_many cfg st items spiderName dup
  | .one item => insert_one cfg st item spiderName dup

/-- The field-filtering dict comprehension of line 176: keep exactly the
pairs whose value is neither `None` nor `''`. -/
def shape_item (r : Record) : Record :=
  r.filter (fun kv => !(kv.2 == Value.vNone) && !(kv.2 == Value.vStr ""))

/-- Lines 174-179 of `process_item`: serialize (the `Record` argument is
already the serialized dict of line 174), drop `None` / `''` fields, then
append the timestamp sub-document if configured, `now` standing for
`datetime.datetime.utcnow()`. -/
def shaped (cfg : Config) (r : Record) (now : Nat) : Record :=
  let item1 := shape_item r
  if cfg.append_timestamp then dictSet item1 "scrapy-mongodb" (.vTs now)
  else item1

/-- Python truthiness of the `buffer` config entry
(`if self.config['buffer']`, line 181). -/
def bufTruthy : Option Int → Bool
  | none => false
  | some n => n ≠ 0

/-- `self.current_item == self.config['buffer']` (line 186). -/
def bufReached (cur : Int) : Option Int → Bool
  | none => false
  | some n => cur = n

/-- `process_item` (lines 165-198).  The item is shaped; in buffer mode
it is appended to the buffer and, when the count reaches the batch size,
the count is reset and the whole buffer is handed to `insert_item`, the
`try/finally` clearing the buffer whatever the outcome; otherwise it is
inserted directly.  The shaped item is returned (or the escaping
exception, with the state at the moment of the raise). -/
def process_item (cfg : Config) (st : PState) (item : Record)
    (spiderName : String) (dup : Bool) (now : Nat) :
    PState × Except PyErr Record :=
  let item2 := shaped cfg item now
  if bufTruthy cfg.buffer then
    let st1 := { st with
                 current_item := st.current_item + 1
                 item_buffer := st.item_buffer ++ [item2] }
    if bufReached st1.current_item cfg.buffer then
      let st2 := { st1 with current_item := 0 }
      match insert_item cfg st2 (.many st2.item_buffer) spiderName dup with
      | (st3, none) => ({ st3 with item_buffer := [] }, .ok item2)
      | (st3, some e) => ({ st3 with item_buffer := [] }, .error e)
    else (st1, .ok item2)
  else
    match insert_item cfg st (.one item2) spiderName dup with
    | (st1, none) => (st1, .ok item2)
    | (st1, some e) => (st1, .error e)

/-- `close_spider` (lines 200-208): flush the buffer through
`insert_item` if it is non-empty.  The buffer is *not* cleared here. -/
def close_spider (cfg : Config) (st : PState) (spiderName : String)
    (dup : Bool) : PState × Option PyErr :=
  if st.item_buffer.isEmpty then (st, none)
  else insert_item cfg st (.many st.item_buffer) spiderName dup

/-- The host's per-record loop: `process_item` once per record in arrival
order.  An exception raised by `process_item` is caught by the host
framework (the item fails, the crawl goes on), so the loop always
continues from the state as mutated. -/
def runItems (cfg : Config) (st : PState) (items : List Record)
    (spiderName : String) (dup : Bool) (now : Nat) : PState :=
  match items with
  | [] => st
  | r :: rs =>
      runItems cfg (process_item cfg st r spiderName dup now).1 rs
        spiderName dup now

/-- The sequence of batch writes (`insert_many` calls) in a trace, each
with its document list. -/
def batchWrites : List Event → List (List Record) :=
  List.filterMap fun e =>
    match e with
    | .insertManyW _ rs => some rs
    | _ => none

/-- The sequence of `close_spider` engine signals in a trace, each with
its reason string. -/
def closeSigs : List Event → List String :=
  List.filterMap fun e =>
    match e with
    | .closeSpiderSig r => some r
    | _ => none

/-- Whether an event is an index creation. -/
def isIndexEvent : Event → Bool
  | .createIndexW _ _ => true
  | _ => false

/-- How many uniqueness indexes a trace creates. -/
def indexCount (evs : List Event) : Nat :=
  (evs.filter isIndexEvent).length

/-- Whether an event is a write to the store (single insert, batch
insert, or upsert). -/
def isWriteEvent : Event → Bool
  | .insertOneW _ _ => true
  | .insertManyW _ _ => true
  | .updateOneW _ _ _ => true
  | _ => false

/-- The writes of a trace. -/
def writes : List Event → List Event :=
  List.filter isWriteEvent

theorem batchWrites_append (a b : List Event) :
    batchWrites (a ++ b) = batchWrites a ++ batchWrites b :=
  List.filterMap_append a b _

theorem closeSigs_append (a b : List Event) :
    closeSigs (a ++ b) = closeSigs a ++ closeSigs b :=
  List.filterMap_append a b _

theorem indexCount_append (a b : List Event) :
    indexCount (a ++ b) = indexCount a + indexCount b := by
  simp [indexCount, List.filter_append]

theorem writes_append (a b : List Event) :
    writes (a ++ b) = writes a ++ writes b :=
  List.filter_append a b

theorem truthy_setOpt_none (v : PyVal) :
    truthy (setOpt PyVal.pyNone v) = truthy v := by
  cases v with
  | pyNone => rfl
  | pyStr s =>
      by_cases h : s = "" <;> simp [setOpt, not_set, truthy, h]
  | pyInt n => rfl
  | pyBool b => rfl
  | pyList xs => rfl

/-- C5: for every pair of settings, configuration resolution fails with
the illegal-configuration error exactly when both the batch size
(`MONGODB_BUFFER_DATA`) and the unique key (`MONGODB_UNIQUE_KEY`) are
truthy; when at most one of them is truthy, no error is raised and the
merged configuration is returned.  `configure` runs from `open_spider`
before any item is processed. -/
theorem claim_C5 (s : Settings) :
    (configure s = .error ConfigError.illegalConfig ↔
      (truthy s.mongodb_buffer_data = true ∧
       truthy s.mongodb_unique_key = true))
    ∧ (configure s = .ok (mergeSettings s) ∨
       configure s = .error ConfigError.illegalConfig) := by
  have hb : truthy (mergeSettings s).buffer = truthy s.mongodb_buffer_data :=
    truthy_setOpt_none _
  have hu : truthy (mergeSettings s).unique_key = truthy s.mongodb_unique_key :=
    truthy_setOpt_none _
  by_cases h : truthy (mergeSettings s).buffer && truthy (mergeSettings s).unique_key
  · have hres : configure s = .error ConfigError.illegalConfig := by
      simp only [configure, h, if_true]
    rw [Bool.and_eq_true] at h
    exact ⟨⟨fun _ => ⟨hb ▸ h.1, hu ▸ h.2⟩, fun _ => hres⟩, Or.inr hres⟩
  · have hres : configure s = .ok (mergeSettings s) := by
      simp [configure, h]
    refine ⟨⟨fun hcontra => absurd hres (by rw [hcontra]; intro hh; cases hh),
      fun hboth => absurd ?_ h⟩, Or.inl hres⟩
    rw [Bool.and_eq_true, hb, hu]
    exact hboth

/-- C6: the shaped record keeps exactly the fields whose value is neither
`None` nor the empty string, preserving their values; the timestamp field
is then added exactly when the append-timestamp flag is set; and
`process_item` hands the shaped record back to the caller (or lets an
exception escape). -/
theorem claim_C6 (cfg : Config) (st : PState) (r : Record) (sp : String)
    (dup : Bool) (now : Nat) :
    (∀ k v, (k, v) ∈ shape_item r ↔
      ((k, v) ∈ r ∧ v ≠ Value.vNone ∧ v ≠ Value.vStr ""))
    ∧ shaped cfg r now =
        (if cfg.append_timestamp then
          dictSet (shape_item r) "scrapy-mongodb" (Value.vTs now)
        else shape_item r)
    ∧ ((process_item cfg st r sp dup now).2 = .ok (shaped cfg r now)
       ∨ ∃ e, (process_item cfg st r sp dup now).2 = .error e) := by
  refine ⟨fun k v => ?_, rfl, ?_⟩
  · simp [shape_item, List.mem_filter, and_assoc]
  · simp only [process_item]
    split
    · split
      · rcases hres : insert_item cfg _ (.many _) sp dup with ⟨st3, e?⟩
        cases e? <;> simp [hres]
      · exact Or.inl rfl
    · rcases hres : insert_item cfg st (.one (shaped cfg r now)) sp dup
        with ⟨st1, e?⟩
      cases e? <;> simp [hres]

/-- C2 counterexample: with threshold `K = 1`, two duplicate-key
rejections make the pipeline issue the fatal stop signal twice (not
exactly once per run), and the reason string the code passes is
`'Number of duplicate key insertion exceeded'`, not the
`'duplicate key insertion threshold exceeded'` the claim states. -/
theorem claim_C2_counterexample :
    closeSigs (runItems ({} : Config) (initState {} 1)
        [[("a", Value.vInt 1)], [("a", Value.vInt 1)]] "sp" true 0).events
      = ["Number of duplicate key insertion exceeded",
         "Number of duplicate key insertion exceeded"]
    ∧ ("Number of duplicate key insertion exceeded" : String)
        ≠ "duplicate key insertion threshold exceeded" := by
  exact ⟨rfl, by decide⟩

/-- C3 counterexample: with batch size `N = 2`, submitting one record and
closing the pipeline issues the expected single flush write, but the
buffer still holds that record afterwards — `close_spider` never clears
`item_buffer`. -/
theorem claim_C3_counterexample :
    (let cfg : Config := { buffer := some 2 }
     let st := runItems cfg (initState cfg 0) [[("a", Value.vInt 1)]] "sp" false 0
     let st2 := (close_spider cfg st "sp" false).1
     batchWrites st2.events = [[[("a", Value.vInt 1)]]]
     ∧ st2.item_buffer = [[("a", Value.vInt 1)]]
     ∧ st2.item_buffer ≠ []) := by
  exact ⟨rfl, rfl, by decide⟩

/-- C4 counterexample: with separate collections and a unique key
configured, routing source `"a"` and then source `"b"` creates the
uniqueness constraint only on collection `"a"`; collection `"b"` is
resolved and handed out for its first write with no constraint issued for
it, because `created_index` is a single per-pipeline flag (line 54), not
a per-collection one. -/
theorem claim_C4_counterexample :
    (let cfg : Config :=
      { separate_collections := true, unique_key := some (.single "k") }
     let s1 := (get_collection cfg (initState cfg 0) "a").1
     (get_collection cfg s1 "b").2 = .ok ("b", ⟨"b"⟩)
     ∧ (get_collection cfg s1 "b").1.events
         = [.createIndexW "a" (.single "k")]) := by
  exact ⟨rfl, rfl⟩

/-- C7 counterexample: with separate collections enabled and the default
collection name `"items"`, routing the source named `"default"` returns
the pre-cached default handle, which is bound to collection `"items"`,
not to a collection named `"default"`; and the distinct source names
`"default"` and `"items"` route to the same collection handle. -/
theorem claim_C7_counterexample :
    (let cfg : Config := { separate_collections := true }
     (get_collection cfg (initState cfg 0) "default").2
        = .ok ("default", ⟨"items"⟩)
     ∧ (get_collection cfg (initState cfg 0) "items").2
        = .ok ("items", ⟨"items"⟩)
     ∧ ("items" : String) ≠ "default") := by
  exact ⟨rfl, rfl, by decide⟩

theorem batchWrites_nil : batchWrites [] = [] := rfl

theorem closeSigs_nil : closeSigs [] = [] := rfl

theorem writes_nil : writes [] = [] := rfl

theorem batchWrites_index (cn : String) (uk : UKey) :
    batchWrites [Event.createIndexW cn uk] = [] := rfl

theorem closeSigs_index (cn : String) (uk : UKey) :
    closeSigs [Event.createIndexW cn uk] = [] := rfl

theorem writes_index (cn : String) (uk : UKey) :
    writes [Event.createIndexW cn uk] = [] := rfl

/-- `get_collection` only touches the collections cache, the
`created_index` flag and the event trace, and the only event it can add
is a single index creation. -/
theorem get_collection_cases (cfg : Config) (st : PState) (n : String) :
    ∃ cols b evs,
      (get_collection cfg st n).1 =
        { st with collections := cols, created_index := b, events := st.events ++ evs }
      ∧ ((evs = [] ∧ b = st.created_index) ∨
         (∃ cn uk, evs = [Event.createIndexW cn uk]
            ∧ b = true ∧ st.created_index = false))
      ∧ (cols = st.collections ∨ cols = st.collections ++ [(n, Handle.mk n)]) := by
  have hsplit : ∀ (st1 : PState), st1.created_index = st.created_index →
      st1.events = st.events →
      ∀ (cn : String) (c : Handle),
      ∃ b evs,
        (match (st1, cn, some c) with
          | (st1, _, none) => (st1, Except.error PyErr.assertionError)
          | (st1, collection_name, some collection) =>
            if ukTruthy cfg.unique_key && !st1.created_index then
              match cfg.unique_key with
              | some uk =>
                  ({ st1 with
                      created_index := true
                      events := st1.events ++ [.createIndexW collection.name uk] },
                   Except.ok (collection_name, collection))
              | none => (st1, Except.ok (collection_name, collection))
            else (st1, Except.ok (collection_name, collection)) :
          PState × Except PyErr (String × Handle)).1 =
        { st1 with created_index := b, events := st.events ++ evs }
        ∧ ((evs = [] ∧ b = st.created_index) ∨
           (∃ cn' uk, evs = [Event.createIndexW cn' uk]
              ∧ b = true ∧ st.created_index = false)) := by
    intro st1 hci hev cn c
    by_cases hidx : ukTruthy cfg.unique_key && !st1.created_index
    · rcases huk : cfg.unique_key with _ | uk
      · rw [huk] at hidx; simp [ukTruthy] at hidx
      · rw [huk, Bool.and_eq_true, Bool.not_eq_true'] at hidx
        refine ⟨true, [Event.createIndexW c.name uk], ?_,
          Or.inr ⟨c.name, uk, rfl, rfl, by rw [← hci]; exact hidx.2⟩⟩
        simp [hidx.1, hidx.2, hev]
    · refine ⟨st1.created_index, [], ?_, Or.inl ⟨rfl, hci⟩⟩
      simp only [List.append_nil]
      rw [← hev]
      simp [hidx]
  unfold get_collection
  by_cases hsep : cfg.separate_collections = true
  · rcases hget : handleGet st.collections n with _ | c
    · obtain ⟨b, evs, h1, h2⟩ :=
        hsplit { st with collections := st.collections ++ [(n, ⟨n⟩)] } rfl rfl n ⟨n⟩
      exact ⟨st.collections ++ [(n, ⟨n⟩)], b, evs,
        by simpa [hsep, hget] using h1, h2, Or.inr rfl⟩
    · obtain ⟨b, evs, h1, h2⟩ := hsplit st rfl rfl n c
      exact ⟨st.collections, b, evs, by simpa [hsep, hget] using h1, h2, Or.inl rfl⟩
  · rcases hget : handleGet st.collections "default" with _ | c
    · refine ⟨st.collections, st.created_index, [], ?_, Or.inl ⟨rfl, rfl⟩, Or.inl rfl⟩
      simp [hsep, hget]
    · obtain ⟨b, evs, h1, h2⟩ := hsplit st rfl rfl cfg.collection c
      exact ⟨st.collections, b, evs, by simpa [hsep, hget] using h1, h2, Or.inl rfl⟩

/-- `get_collection` leaves the buffer, the counters and all writes /
signals of the trace untouched. -/
theorem get_collection_fields (cfg : Config) (st : PState) (n : String) :
    (get_collection cfg st n).1.item_buffer = st.item_buffer
    ∧ (get_collection cfg st n).1.current_item = st.current_item
    ∧ (get_collection cfg st n).1.duplicate_key_count = st.duplicate_key_count
    ∧ (get_collection cfg st n).1.stop_on_duplicate = st.stop_on_duplicate
    ∧ batchWrites (get_collection cfg st n).1.events = batchWrites st.events
    ∧ closeSigs (get_collection cfg st n).1.events = closeSigs st.events
    ∧ writes (get_collection cfg st n).1.events = writes st.events := by
  obtain ⟨cols, b, evs, h1, h2, h3⟩ := get_collection_cases cfg st n
  have hevs : batchWrites evs = [] ∧ closeSigs evs = [] ∧ writes evs = [] := by
    rcases h2 with ⟨rfl, -⟩ | ⟨cn, uk, rfl, -, -⟩ <;> exact ⟨rfl, rfl, rfl⟩
  rw [h1]
  simp [batchWrites_append, closeSigs_append, writes_append,
    hevs.1, hevs.2.1, hevs.2.2]

/-- When the default handle is cached, `get_collection` cannot hit the
assertion: it returns some name / handle pair. -/
theorem get_collection_ok (cfg : Config) (st : PState) (n : String)
    (hdef : handleGet st.collections "default" ≠ none) :
    ∃ cn c, (get_collection cfg st n).2 = .ok (cn, c) := by
  have hsplit : ∀ (st1 : PState) (cn : String) (c : Handle),
      (match (st1, cn, some c) with
        | (st1, _, none) => (st1, Except.error PyErr.assertionError)
        | (st1, collection_name, some collection) =>
          if ukTruthy cfg.unique_key && !st1.created_index then
            match cfg.unique_key with
            | some uk =>
                ({ st1 with
                    created_index := true
                    events := st1.events ++ [.createIndexW collection.name uk] },
                 Except.ok (collection_name, collection))
            | none => (st1, Except.ok (collection_name, collection))
          else (st1, Except.ok (collection_name, collection)) :
        PState × Except PyErr (String × Handle)).2 = Except.ok (cn, c) := by
    intro st1 cn c
    by_cases hidx : (ukTruthy cfg.unique_key && !st1.created_index) = true
    · rw [Bool.and_eq_true, Bool.not_eq_true'] at hidx
      rcases huk : cfg.unique_key with _ | uk
      · rw [huk] at hidx; simp [ukTruthy] at hidx
      · rw [huk] at hidx
        simp [hidx.1, hidx.2, huk]
    · simp [hidx]
  unfold get_collection
  by_cases hsep : cfg.separate_collections = true
  · rcases hget : handleGet st.collections n with _ | c
    · exact ⟨n, ⟨n⟩, by
        simpa [hsep, hget] using
          hsplit { st with collections := st.collections ++ [(n, ⟨n⟩)] } n ⟨n⟩⟩
    · exact ⟨n, c, by simpa [hsep, hget] using hsplit st n c⟩
  · rcases hget : handleGet st.collections "default" with _ | c
    · exact absurd hget hdef
    · exact ⟨cfg.collection, c, by simpa [hsep, hget] using hsplit st cfg.collection c⟩

/-- The duplicate-key handler only bumps the counter and possibly emits
the fixed stop signal. -/
theorem on_duplicate_key_cases (st : PState) :
    ∃ d evs, on_duplicate_key st =
      { st with duplicate_key_count := d, events := st.events ++ evs }
      ∧ (evs = [] ∨
         evs = [Event.closeSpiderSig "Number of duplicate key insertion exceeded"]) := by
  unfold on_duplicate_key
  by_cases h1 : st.stop_on_duplicate > 0
  · by_cases h2 : st.duplicate_key_count + 1 ≥ st.stop_on_duplicate
    · exact ⟨st.duplicate_key_count + 1, [_], by simp [h1, h2], Or.inr rfl⟩
    · exact ⟨st.duplicate_key_count + 1, [], by simp [h1, h2], Or.inl rfl⟩
  · exact ⟨st.duplicate_key_count, [], by simp [h1], Or.inl rfl⟩

theorem handleGet_append_some {m : List (String × Handle)} {k : String}
    {h : Handle} (hm : handleGet m k = some h) (l : List (String × Handle)) :
    handleGet (m ++ l) k = some h := by
  induction m with
  | nil => simp [handleGet] at hm
  | cons p rest ih =>
      rcases p with ⟨k', h'⟩
      by_cases hk : k' = k
      · rw [handleGet, if_pos hk] at hm
        simp [handleGet, hk, hm]
      · rw [handleGet, if_neg hk] at hm
        simp [handleGet, hk, ih hm]

/-- `get_collection` never drops the default handle from the cache. -/
theorem get_collection_default (cfg : Config) (st : PState) (n : String)
    (hdef : handleGet st.collections "default" ≠ none) :
    handleGet (get_collection cfg st n).1.collections "default" ≠ none := by
  obtain ⟨cols, b, evs, h1, _, hcols⟩ := get_collection_cases cfg st n
  rw [h1]
  rcases hget : handleGet st.collections "default" with _ | h0
  · exact absurd hget hdef
  · rcases hcols with rfl | rfl
    · simp [hget]
    · simp [handleGet_append_some hget]

/-- Exact behavior of the duplicate-key handler when the circuit breaker
is armed. -/
theorem on_duplicate_key_spec (st : PState) (h : st.stop_on_duplicate > 0) :
    on_duplicate_key st =
      { st with
        duplicate_key_count := st.duplicate_key_count + 1
        events := st.events ++
          (if st.duplicate_key_count + 1 ≥ st.stop_on_duplicate then
            [Event.closeSpiderSig "Number of duplicate key insertion exceeded"]
          else []) } := by
  unfold on_duplicate_key
  by_cases h2 : st.duplicate_key_count + 1 ≥ st.stop_on_duplicate <;>
    simp [h, h2]

/-- `_insert_one` without a unique key never raises: it logs one insert
attempt, leaves buffer and counters alone, and (only on a duplicate
rejection) runs the circuit breaker. -/
theorem insert_one_none_uk (cfg : Config) (st : PState) (item : Record)
    (sp : String) (dup : Bool) (hu : cfg.unique_key = none)
    (hdef : handleGet st.collections "default" ≠ none) :
    ∃ st1, insert_one cfg st item sp dup = (st1, none)
      ∧ st1.item_buffer = st.item_buffer
      ∧ st1.current_item = st.current_item
      ∧ st1.stop_on_duplicate = st.stop_on_duplicate
      ∧ handleGet st1.collections "default" ≠ none
      ∧ batchWrites st1.events = batchWrites st.events
      ∧ (dup = false →
          st1.duplicate_key_count = st.duplicate_key_count
          ∧ closeSigs st1.events = closeSigs st.events)
      ∧ (dup = true → st.stop_on_duplicate > 0 →
          st1.duplicate_key_count = st.duplicate_key_count + 1
          ∧ closeSigs st1.events = closeSigs st.events ++
              (if st.duplicate_key_count + 1 ≥ st.stop_on_duplicate then
                ["Number of duplicate key insertion exceeded"] else [])) := by
  obtain ⟨cn, c, hok⟩ := get_collection_ok cfg st sp hdef
  obtain ⟨fbuf, fcur, fdup, fstop, fbw, fcs, _⟩ := get_collection_fields cfg st sp
  have hdef1 := get_collection_default cfg st sp hdef
  have hpair : get_collection cfg st sp =
      ((get_collection cfg st sp).1, Except.ok (cn, c)) := by
    rw [← hok]
  have hres : insert_one cfg st item sp dup =
      ((if dup then
          on_duplicate_key { (get_collection cfg st sp).1 with
            events := (get_collection cfg st sp).1.events ++
              [Event.insertOneW c.name item] }
        else
          { (get_collection cfg st sp).1 with
            events := (get_collection cfg st sp).1.events ++
              [Event.insertOneW c.name item] }), none) := by
    unfold insert_one
    rw [hpair, hu]
    cases dup <;> rfl
  have hB1 : ({ (get_collection cfg st sp).1 with
      events := (get_collection cfg st sp).1.events ++
        [Event.insertOneW c.name item] } : PState).item_buffer
      = st.item_buffer := fbuf
  have hB2 : ({ (get_collection cfg st sp).1 with
      events := (get_collection cfg st sp).1.events ++
        [Event.insertOneW c.name item] } : PState).current_item
      = st.current_item := fcur
  have hB3 : ({ (get_collection cfg st sp).1 with
      events := (get_collection cfg st sp).1.events ++
        [Event.insertOneW c.name item] } : PState).stop_on_duplicate
      = st.stop_on_duplicate := fstop
  have hB4 : handleGet ({ (get_collection cfg st sp).1 with
      events := (get_collection cfg st sp).1.events ++
        [Event.insertOneW c.name item] } : PState).collections "default"
      ≠ none := hdef1
  have hB5 : batchWrites ({ (get_collection cfg st sp).1 with
      events := (get_collection cfg st sp).1.events ++
        [Event.insertOneW c.name item] } : PState).events
      = batchWrites st.events := by
    show batchWrites ((get_collection cfg st sp).1.events ++
      [Event.insertOneW c.name item]) = batchWrites st.events
    rw [batchWrites_append, fbw]
    simp [batchWrites]
  have hB6 : ({ (get_collection cfg st sp).1 with
      events := (get_collection cfg st sp).1.events ++
        [Event.insertOneW c.name item] } : PState).duplicate_key_count
      = st.duplicate_key_count := fdup
  have hB7 : closeSigs ({ (get_collection cfg st sp).1 with
      events := (get_collection cfg st sp).1.events ++
        [Event.insertOneW c.name item] } : PState).events
      = closeSigs st.events := by
    show closeSigs ((get_collection cfg st sp).1.events ++
      [Event.insertOneW c.name item]) = closeSigs st.events
    rw [closeSigs_append, fcs]
    simp [closeSigs]
  set stB : PState := { (get_collection cfg st sp).1 with
    events := (get_collection cfg st sp).1.events ++
      [Event.insertOneW c.name item] }
  cases dup with
  | false =>
      rw [if_neg (by simp)] at hres
      exact ⟨stB, hres, hB1, hB2, hB3, hB4, hB5,
        fun _ => ⟨hB6, hB7⟩, fun hcon => absurd hcon (by simp)⟩
  | true =>
      rw [if_pos rfl] at hres
      by_cases harmed : st.stop_on_duplicate > 0
      · have harmedB : stB.stop_on_duplicate > 0 := by rw [hB3]; exact harmed
        have hspec := on_duplicate_key_spec stB harmedB
        have hcond : (stB.duplicate_key_count + 1 ≥ stB.stop_on_duplicate)
            = (st.duplicate_key_count + 1 ≥ st.stop_on_duplicate) := by
          rw [hB6, hB3]
        refine ⟨on_duplicate_key stB, hres, ?_, ?_, ?_, ?_, ?_,
          fun hcon => absurd hcon (by simp), fun _ _ => ⟨?_, ?_⟩⟩
        · rw [hspec]; exact hB1
        · rw [hspec]; exact hB2
        · rw [hspec]; exact hB3
        · rw [hspec]; exact hB4
        · rw [hspec]
          show batchWrites (stB.events ++ _) = batchWrites st.events
          rw [batchWrites_append, hB5]
          split <;> simp [batchWrites]
        · rw [hspec]
          show stB.duplicate_key_count + 1 = st.duplicate_key_count + 1
          rw [hB6]
        · rw [hspec]
          show closeSigs (stB.events ++ _) = _
          rw [closeSigs_append, hB7]
          by_cases hc : st.duplicate_key_count + 1 ≥ st.stop_on_duplicate
          · rw [if_pos hc, if_pos (hcond.symm ▸ hc)]
            rfl
          · rw [if_neg hc, if_neg (fun hcc => hc (hcond ▸ hcc))]
            rfl
      · have hnotB : ¬ stB.stop_on_duplicate > 0 := by rw [hB3]; exact harmed
        have hid : on_duplicate_key stB = stB := by
          unfold on_duplicate_key
          simp [hnotB]
        rw [hid] at hres
        exact ⟨stB, hres, hB1, hB2, hB3, hB4, hB5,
          fun hcon => absurd hcon (by simp),
          fun _ hpos => absurd hpos harmed⟩

/-- `_insert_many` without a unique key never raises: it logs exactly one
batch write carrying the whole document list and leaves buffer and
counters alone. -/
theorem insert_many_none_uk (cfg : Config) (st : PState) (items : List Record)
    (sp : String) (dup : Bool) (hu : cfg.unique_key = none)
    (hdef : handleGet st.collections "default" ≠ none) :
    ∃ st1, insert_many cfg st items sp dup = (st1, none)
      ∧ st1.item_buffer = st.item_buffer
      ∧ st1.current_item = st.current_item
      ∧ st1.stop_on_duplicate = st.stop_on_duplicate
      ∧ handleGet st1.collections "default" ≠ none
      ∧ batchWrites st1.events = batchWrites st.events ++ [items] := by
  obtain ⟨cn, c, hok⟩ := get_collection_ok cfg st sp hdef
  obtain ⟨fbuf, fcur, fdup, fstop, fbw, fcs, _⟩ := get_collection_fields cfg st sp
  have hdef1 := get_collection_default cfg st sp hdef
  have hpair : get_collection cfg st sp =
      ((get_collection cfg st sp).1, Except.ok (cn, c)) := by
    rw [← hok]
  have hres : insert_many cfg st items sp dup =
      ((if dup then
          on_duplicate_key { (get_collection cfg st sp).1 with
            events := (get_collection cfg st sp).1.events ++
              [Event.insertManyW c.name items] }
        else
          { (get_collection cfg st sp).1 with
            events := (get_collection cfg st sp).1.events ++
              [Event.insertManyW c.name items] }), none) := by
    unfold insert_many
    rw [hpair, hu]
    cases dup <;> rfl
  have hB1 : ({ (get_collection cfg st sp).1 with
      events := (get_collection cfg st sp).1.events ++
        [Event.insertManyW c.name items] } : PState).item_buffer
      = st.item_buffer := fbuf
  have hB2 : ({ (get_collection cfg st sp).1 with
      events := (get_collection cfg st sp).1.events ++
        [Event.insertManyW c.name items] } : PState).current_item
      = st.current_item := fcur
  have hB3 : ({ (get_collection cfg st sp).1 with
      events := (get_collection cfg st sp).1.events ++
        [Event.insertManyW c.name items] } : PState).stop_on_duplicate
      = st.stop_on_duplicate := fstop
  have hB4 : handleGet ({ (get_collection cfg st sp).1 with
      events := (get_collection cfg st sp).1.events ++
        [Event.insertManyW c.name items] } : PState).collections "default"
      ≠ none := hdef1
  have hB5 : batchWrites ({ (get_collection cfg st sp).1 with
      events := (get_collection cfg st sp).1.events ++
        [Event.insertManyW c.name items] } : PState).events
      = batchWrites st.events ++ [items] := by
    show batchWrites ((get_collection cfg st sp).1.events ++
      [Event.insertManyW c.name items]) = _
    rw [batchWrites_append, fbw]
    rfl
  set stB : PState := { (get_collection cfg st sp).1 with
    events := (get_collection cfg st sp).1.events ++
      [Event.insertManyW c.name items] }
  cases dup with
  | false =>
      rw [if_neg (by simp)] at hres
      exact ⟨stB, hres, hB1, hB2, hB3, hB4, hB5⟩
  | true =>
      rw [if_pos rfl] at hres
      obtain ⟨d, evs, hEq, hevs⟩ := on_duplicate_key_cases stB
      refine ⟨on_duplicate_key stB, hres, ?_, ?_, ?_, ?_, ?_⟩
      · rw [hEq]; exact hB1
      · rw [hEq]; exact hB2
      · rw [hEq]; exact hB3
      · rw [hEq]; exact hB4
      · rw [hEq]
        show batchWrites (stB.events ++ evs) = _
        rw [batchWrites_append, hB5]
        rcases hevs with rfl | rfl <;> simp [batchWrites]

/-- Without a unique key, `process_item` always hands the shaped item
back — no store rejection ever escapes to the caller. -/
theorem process_item_none_uk (cfg : Config) (st : PState) (item : Record)
    (sp : String) (dup : Bool) (now : Nat) (hu : cfg.unique_key = none)
    (hdef : handleGet st.collections "default" ≠ none) :
    (process_item cfg st item sp dup now).2 = .ok (shaped cfg item now) := by
  unfold process_item
  by_cases hbuf : bufTruthy cfg.buffer = true
  · simp only [hbuf, if_true]
    by_cases hreach : bufReached (st.current_item + 1) cfg.buffer = true
    · obtain ⟨st3, heq, -, -, -, -, -⟩ :=
        insert_many_none_uk cfg
          { st with
            current_item := 0
            item_buffer := st.item_buffer ++ [shaped cfg item now] }
          (st.item_buffer ++ [shaped cfg item now]) sp dup hu hdef
      simp only [insert_item]
      simp [hreach, heq]
    · simp [hreach]
  · simp only [Bool.not_eq_true] at hbuf
    obtain ⟨st1, heq, -, -, -, -, -, -, -⟩ :=
      insert_one_none_uk cfg st (shaped cfg item now) sp dup hu hdef
    simp only [insert_item]
    simp [hbuf, heq]

/-- C8: when no unique key is configured, a duplicate-key rejection
raised by the store during a single or a batch insert is caught inside
`_insert_one` / `_insert_many` and never re-raised, and `process_item`
still returns the shaped record. -/
theorem claim_C8 (cfg : Config) (st : PState) (item : Record)
    (items : List Record) (sp : String) (now : Nat)
    (hu : cfg.unique_key = none)
    (hdef : handleGet st.collections "default" ≠ none) :
    (insert_one cfg st item sp true).2 = none
    ∧ (insert_many cfg st items sp true).2 = none
    ∧ (process_item cfg st item sp true now).2 = .ok (shaped cfg item now) := by
  obtain ⟨st1, h1, -⟩ := insert_one_none_uk cfg st item sp true hu hdef
  obtain ⟨st2, h2, -⟩ := insert_many_none_uk cfg st items sp true hu hdef
  exact ⟨by rw [h1], by rw [h2],
    process_item_none_uk cfg st item sp true now hu hdef⟩

/-- C8 witness: a concrete run of the three operations on a duplicate
rejection, with the default configuration. -/
theorem claim_C8_witness :
    (insert_one ({} : Config) (initState {} 0) [("a", Value.vInt 1)] "sp" true).2 = none
    ∧ (insert_many ({} : Config) (initState {} 0) [[("a", Value.vInt 1)]] "sp" true).2 = none
    ∧ (process_item ({} : Config) (initState {} 0) [("a", Value.vInt 1)] "sp" true 0).2
        = .ok (shaped {} [("a", Value.vInt 1)] 0) :=
  claim_C8 {} (initState {} 0) [("a", Value.vInt 1)] [[("a", Value.vInt 1)]]
    "sp" 0 rfl (by decide)

/-- The flushing `process_item` always leaves an empty buffer, whatever
`insert_item` does — this is the `try/finally` of lines 189-193. -/
theorem process_item_flush_clears (cfg : Config) (st : PState) (item : Record)
    (sp : String) (dup : Bool) (now : Nat) (N : Int)
    (hb : cfg.buffer = some N) (hN0 : N ≠ 0)
    (hcur : st.current_item + 1 = N) :
    (process_item cfg st item sp dup now).1.item_buffer = [] := by
  have hbuf : bufTruthy cfg.buffer = true := by
    rw [hb]; simpa [bufTruthy] using hN0
  have hreach : bufReached (st.current_item + 1) cfg.buffer = true := by
    rw [hb]; simpa [bufReached] using hcur
  unfold process_item
  simp only [hbuf, if_true]
  simp only [hreach]
  simp only [if_true]
  split <;> rfl

/-- The flushing `process_item` without a unique key: one batch write
carrying the whole buffer, buffer emptied, count reset. -/
theorem process_item_flush_no_uk (cfg : Config) (st : PState) (item : Record)
    (sp : String) (dup : Bool) (now : Nat) (N : Int)
    (hu : cfg.unique_key = none)
    (hdef : handleGet st.collections "default" ≠ none)
    (hb : cfg.buffer = some N) (hN0 : N ≠ 0)
    (hcur : st.current_item + 1 = N) :
    ∃ st', process_item cfg st item sp dup now = (st', .ok (shaped cfg item now))
      ∧ st'.item_buffer = []
      ∧ st'.current_item = 0
      ∧ batchWrites st'.events =
          batchWrites st.events ++ [st.item_buffer ++ [shaped cfg item now]] := by
  have hbuf : bufTruthy cfg.buffer = true := by
    rw [hb]; simpa [bufTruthy] using hN0
  have hreach : bufReached (st.current_item + 1) cfg.buffer = true := by
    rw [hb]; simpa [bufReached] using hcur
  obtain ⟨st3, heq, hb1, hb2, -, -, hb5⟩ :=
    insert_many_none_uk cfg
      { st with
        current_item := 0
        item_buffer := st.item_buffer ++ [shaped cfg item now] }
      (st.item_buffer ++ [shaped cfg item now]) sp dup hu hdef
  refine ⟨{ st3 with item_buffer := [] }, ?_, rfl, ?_, ?_⟩
  · unfold process_item
    simp only [hbuf, if_true]
    simp only [hreach]
    simp only [if_true, insert_item]
    simp [heq]
  · show st3.current_item = 0
    rw [hb2]
  · show batchWrites st3.events = _
    rw [hb5]

/-- Below the batch threshold, `process_item` only appends to the buffer
and bumps the count. -/
theorem process_item_under (cfg : Config) (st : PState) (item : Record)
    (sp : String) (dup : Bool) (now : Nat) (N : Int)
    (hb : cfg.buffer = some N) (hN0 : N ≠ 0)
    (hcur : st.current_item + 1 ≠ N) :
    process_item cfg st item sp dup now =
      ({ st with
          current_item := st.current_item + 1
          item_buffer := st.item_buffer ++ [shaped cfg item now] },
       .ok (shaped cfg item now)) := by
  have hbuf : bufTruthy cfg.buffer = true := by
    rw [hb]; simpa [bufTruthy] using hN0
  have hreach : bufReached (st.current_item + 1) cfg.buffer = false := by
    rw [hb]; simpa [bufReached] using hcur
  unfold process_item
  simp only [hbuf, if_true]
  simp only [hreach]
  simp

/-- Filling the buffer while strictly below the threshold accumulates the
shaped records in order. -/
theorem runItems_fill (cfg : Config) (sp : String) (dup : Bool) (now : Nat)
    (N : Int) (hb : cfg.buffer = some N) (hN0 : N ≠ 0) :
    ∀ (items : List Record) (st : PState),
      st.current_item + (items.length : Int) < N →
      runItems cfg st items sp dup now =
        { st with
          current_item := st.current_item + items.length
          item_buffer := st.item_buffer ++
            items.map (fun r => shaped cfg r now) } := by
  intro items
  induction items with
  | nil =>
      intro st h
      rw [runItems]
      simp
  | cons r rs ih =>
      intro st h
      have hcur : st.current_item + 1 ≠ N := by
        have hlen : ((r :: rs).length : Int) = (rs.length : Int) + 1 := by
          push_cast [List.length_cons]; ring
        rw [hlen] at h
        have hpos : (0 : Int) ≤ (rs.length : Int) := Int.natCast_nonneg _
        omega
      rw [runItems, process_item_under cfg st r sp dup now N hb hN0 hcur]
      rw [ih]
      · simp only [List.length_cons, List.map_cons]
        congr 1
        · push_cast
          ring
        · simp
      · have hlen : ((r :: rs).length : Int) = (rs.length : Int) + 1 := by
          push_cast [List.length_cons]; ring
        rw [hlen] at h
        simp only []
        omega

theorem runItems_append (cfg : Config) (st : PState) (xs ys : List Record)
    (sp : String) (dup : Bool) (now : Nat) :
    runItems cfg st (xs ++ ys) sp dup now =
      runItems cfg (runItems cfg st xs sp dup now) ys sp dup now := by
  induction xs generalizing st with
  | nil => rfl
  | cons r rs ih => rw [List.cons_append, runItems, runItems, ih]

/-- C1: with batch size `N > 0`, submitting exactly `N` records issues
exactly one batch write containing all `N` shaped records, after which
the buffer is empty and the count is zero; moreover (for any
configuration with that batch size and any state at the threshold) the
buffer is cleared by the flushing `process_item` regardless of the
write's outcome, exceptions included — the `try/finally` of lines
189-193. -/
theorem claim_C1 (N K : Int) (cfg cfgB : Config) (items : List Record)
    (sp spB : String) (dup dupB : Bool) (now nowB : Nat)
    (stB : PState) (rB : Record)
    (hN : 0 < N) (hb : cfg.buffer = some N) (hu : cfg.unique_key = none)
    (hlen : (items.length : Int) = N)
    (hbB : cfgB.buffer = some N) (hcB : stB.current_item + 1 = N) :
    batchWrites (runItems cfg (initState cfg K) items sp dup now).events
      = [items.map (fun r => shaped cfg r now)]
    ∧ (runItems cfg (initState cfg K) items sp dup now).item_buffer = []
    ∧ (runItems cfg (initState cfg K) items sp dup now).current_item = 0
    ∧ (process_item cfgB stB rB spB dupB nowB).1.item_buffer = [] := by
  have hN0 : N ≠ 0 := by omega
  have hne : items ≠ [] := by
    intro hcon
    rw [hcon] at hlen
    simp at hlen
    omega
  have hlpos : 1 ≤ items.length := List.length_pos.mpr hne
  have hdlen : ((items.dropLast.length : Nat) : Int) = N - 1 := by
    rw [List.length_dropLast, Nat.cast_sub hlpos, hlen]
    simp
  have hdefInit : handleGet (initState cfg K).collections "default" ≠ none := by
    simp [initState, handleGet]
  have hcond : (initState cfg K).current_item +
      ((items.dropLast.length : Nat) : Int) < N := by
    show (0 : Int) + _ < N
    rw [hdlen]
    omega
  have hmid := runItems_fill cfg sp dup now N hb hN0 items.dropLast
    (initState cfg K) hcond
  set MID : PState := { initState cfg K with
    current_item := (initState cfg K).current_item + items.dropLast.length
    item_buffer := (initState cfg K).item_buffer ++
      items.dropLast.map (fun r => shaped cfg r now) } with hMID
  have hcurMID : MID.current_item + 1 = N := by
    show (0 : Int) + ((items.dropLast.length : Nat) : Int) + 1 = N
    rw [hdlen]
    omega
  have hdefMID : handleGet MID.collections "default" ≠ none := hdefInit
  obtain ⟨st', hst', hbufE, hcur0, hbw⟩ :=
    process_item_flush_no_uk cfg MID (items.getLast hne) sp dup now N hu
      hdefMID hb hN0 hcurMID
  have hrun : runItems cfg (initState cfg K) items sp dup now = st' := by
    conv_lhs => rw [← List.dropLast_append_getLast hne]
    rw [runItems_append, hmid, runItems, hst']
    rfl
  refine ⟨?_, ?_, ?_,
    process_item_flush_clears cfgB stB rB spB dupB nowB N hbB hN0 hcB⟩
  · rw [hrun, hbw]
    have h1 : batchWrites MID.events = [] := rfl
    have h2 : MID.item_buffer =
        items.dropLast.map (fun r => shaped cfg r now) := rfl
    rw [h1, h2]
    conv_rhs => rw [← List.dropLast_append_getLast hne]
    simp [List.map_append]
  · rw [hrun]
    exact hbufE
  · rw [hrun]
    exact hcur0

/-- C1 witness: batch size 1, one record. -/
theorem claim_C1_witness :
    batchWrites (runItems ({ buffer := some 1 } : Config)
        (initState { buffer := some 1 } 0)
        [[("a", Value.vInt 1)]] "sp" false 0).events
      = [[[("a", Value.vInt 1)]]]
    ∧ (runItems ({ buffer := some 1 } : Config)
        (initState { buffer := some 1 } 0)
        [[("a", Value.vInt 1)]] "sp" false 0).item_buffer = []
    ∧ (runItems ({ buffer := some 1 } : Config)
        (initState { buffer := some 1 } 0)
        [[("a", Value.vInt 1)]] "sp" false 0).current_item = 0
    ∧ (process_item ({ buffer := some 1 } : Config)
        (initState { buffer := some 1 } 0)
        [("b", Value.vInt 2)] "sp" false 0).1.item_buffer = [] :=
  claim_C1 1 0 { buffer := some 1 } { buffer := some 1 }
    [[("a", Value.vInt 1)]] "sp" "sp" false false 0 0
    (initState { buffer := some 1 } 0) [("b", Value.vInt 2)]
    (by decide) rfl rfl (by decide) rfl (by decide)

/-- C3 amended: with batch size `N > 1`, submitting `N-1` records issues
no write, and closing the pipeline then issues exactly one flush write
containing those `N-1` shaped records; the buffer, however, still holds
them afterwards — it is cleared after every batch-size flush during
processing (see C1) but *not* by the shutdown flush. -/
theorem claim_C3_amended (N K : Int) (cfg : Config) (items : List Record)
    (sp : String) (dup dup2 : Bool) (now : Nat)
    (hN : 1 < N) (hb : cfg.buffer = some N) (hu : cfg.unique_key = none)
    (hlen : (items.length : Int) = N - 1) :
    batchWrites (runItems cfg (initState cfg K) items sp dup now).events = []
    ∧ ∃ st2,
        close_spider cfg (runItems cfg (initState cfg K) items sp dup now)
            sp dup2 = (st2, none)
        ∧ batchWrites st2.events = [items.map (fun r => shaped cfg r now)]
        ∧ st2.item_buffer = items.map (fun r => shaped cfg r now) := by
  have hN0 : N ≠ 0 := by omega
  have hne : items ≠ [] := by
    intro hcon
    rw [hcon] at hlen
    simp at hlen
    omega
  have hcond : (initState cfg K).current_item + (items.length : Int) < N := by
    show (0 : Int) + _ < N
    rw [hlen]
    omega
  have hmid := runItems_fill cfg sp dup now N hb hN0 items (initState cfg K) hcond
  rw [hmid]
  set MID : PState := { initState cfg K with
    current_item := (initState cfg K).current_item + items.length
    item_buffer := (initState cfg K).item_buffer ++
      items.map (fun r => shaped cfg r now) } with hMID
  have hbufMID : MID.item_buffer = items.map (fun r => shaped cfg r now) := rfl
  have hMIDev : batchWrites MID.events = [] := rfl
  have hdefMID : handleGet MID.collections "default" ≠ none := by
    show handleGet (initState cfg K).collections "default" ≠ none
    simp [initState, handleGet]
  refine ⟨hMIDev, ?_⟩
  have hnonempty : MID.item_buffer.isEmpty = false := by
    rw [hbufMID]
    rcases items with _ | ⟨r, rs⟩
    · exact absurd rfl hne
    · rfl
  obtain ⟨st2, heq, hb1, -, -, -, hb5⟩ :=
    insert_many_none_uk cfg MID MID.item_buffer sp dup2 hu hdefMID
  refine ⟨st2, ?_, ?_, ?_⟩
  · unfold close_spider
    simp only [hnonempty, Bool.false_eq_true, if_false, insert_item]
    exact heq
  · rw [hb5, hMIDev, hbufMID]
    rfl
  · rw [hb1, hbufMID]

/-- C3 amended witness: batch size 2, one record, then close. -/
theorem claim_C3_amended_witness :
    batchWrites (runItems ({ buffer := some 2 } : Config)
        (initState { buffer := some 2 } 0)
        [[("a", Value.vInt 1)]] "sp" false 0).events = []
    ∧ ∃ st2,
        close_spider ({ buffer := some 2 } : Config)
            (runItems ({ buffer := some 2 } : Config)
              (initState { buffer := some 2 } 0)
              [[("a", Value.vInt 1)]] "sp" false 0) "sp" false = (st2, none)
        ∧ batchWrites st2.events = [[[("a", Value.vInt 1)]]]
        ∧ st2.item_buffer = [[("a", Value.vInt 1)]] :=
  claim_C3_amended 2 0 { buffer := some 2 } [[("a", Value.vInt 1)]]
    "sp" false false 0 (by decide) rfl rfl (by decide)

/-- The stop signals produced by a run of `n` consecutive duplicate-key
rejections starting from counter value `c` with threshold `K`: one signal
per rejection whose new count reaches the threshold. -/
def dupSigs (c K : Int) : Nat → List String
  | 0 => []
  | n + 1 =>
      (if c + 1 ≥ K then ["Number of duplicate key insertion exceeded"]
       else []) ++ dupSigs (c + 1) K n

theorem dupSigs_below (K : Int) :
    ∀ (n : Nat) (c : Int), c + (n : Int) < K → dupSigs c K n = [] := by
  intro n
  induction n with
  | zero => intro c _; rfl
  | succ m ih =>
      intro c h
      have h1 : ¬ c + 1 ≥ K := by
        push_cast at h
        omega
      rw [dupSigs, if_neg h1, ih (c + 1) (by push_cast at h ⊢; omega)]
      rfl

theorem dupSigs_hit (K : Int) :
    ∀ (n : Nat) (c : Int), 1 ≤ n → c + (n : Int) = K →
      dupSigs c K n = ["Number of duplicate key insertion exceeded"] := by
  intro n
  induction n with
  | zero => intro c h _; omega
  | succ m ih =>
      intro c _ h
      rcases Nat.eq_zero_or_pos m with hm | hm
      · subst hm
        have h1 : c + 1 ≥ K := by push_cast at h; omega
        rw [dupSigs, if_pos h1]
        rfl
      · have h1 : ¬ c + 1 ≥ K := by
          push_cast at h
          omega
        rw [dupSigs, if_neg h1,
          ih (c + 1) hm (by push_cast at h ⊢; omega)]
        rfl

/-- A run of all-duplicate single inserts: the counter advances by one
per record and the signals are exactly `dupSigs`. -/
theorem runItems_dup (cfg : Config) (sp : String) (now : Nat)
    (hu : cfg.unique_key = none) (hb : cfg.buffer = none) :
    ∀ (items : List Record) (st : PState),
      handleGet st.collections "default" ≠ none →
      st.stop_on_duplicate > 0 →
      (runItems cfg st items sp true now).duplicate_key_count
          = st.duplicate_key_count + items.length
      ∧ closeSigs (runItems cfg st items sp true now).events
          = closeSigs st.events ++
            dupSigs st.duplicate_key_count st.stop_on_duplicate items.length := by
  have hbuf : bufTruthy cfg.buffer = false := by rw [hb]; rfl
  intro items
  induction items with
  | nil =>
      intro st _ _
      rw [runItems]
      simp [dupSigs]
  | cons r rs ih =>
      intro st hdef harmed
      obtain ⟨st1, heq, -, -, hstop, hdef1, -, -, hdup⟩ :=
        insert_one_none_uk cfg st (shaped cfg r now) sp true hu hdef
      obtain ⟨hcnt, hsigs⟩ := hdup rfl harmed
      have hstep : (process_item cfg st r sp true now).1 = st1 := by
        unfold process_item
        simp only [hbuf, Bool.false_eq_true, if_false, insert_item]
        rw [heq]
      rw [runItems, hstep]
      have harmed1 : st1.stop_on_duplicate > 0 := by rw [hstop]; exact harmed
      obtain ⟨ih1, ih2⟩ := ih st1 hdef1 harmed1
      constructor
      · rw [ih1, hcnt, List.length_cons]
        push_cast
        ring
      · rw [ih2, hsigs, hcnt, hstop]
        rw [List.append_assoc]
        congr 1

/-- C2 amended: with threshold `K > 0` (no unique key, no batching), the
`(K-1)`-th duplicate-key rejection does not trigger the stop signal and
the `K`-th does, the signal carrying the code's fixed reason string
`'Number of duplicate key insertion exceeded'`; the signal is issued
again on each later duplicate while processing continues (see the
counterexample), the code relying on the host to stop the run. -/
theorem claim_C2_amended (K : Int) (cfg : Config)
    (itemsA itemsB : List Record) (sp : String) (now : Nat)
    (hu : cfg.unique_key = none) (hb : cfg.buffer = none)
    (hK : 0 < K)
    (hlenA : (itemsA.length : Int) = K - 1)
    (hlenB : (itemsB.length : Int) = K) :
    closeSigs (runItems cfg (initState cfg K) itemsA sp true now).events = []
    ∧ closeSigs (runItems cfg (initState cfg K) itemsB sp true now).events
        = ["Number of duplicate key insertion exceeded"] := by
  have hdef : handleGet (initState cfg K).collections "default" ≠ none := by
    simp [initState, handleGet]
  have harmed : (initState cfg K).stop_on_duplicate > 0 := hK
  obtain ⟨-, hA⟩ := runItems_dup cfg sp now hu hb itemsA (initState cfg K)
    hdef harmed
  obtain ⟨-, hB⟩ := runItems_dup cfg sp now hu hb itemsB (initState cfg K)
    hdef harmed
  constructor
  · rw [hA]
    show closeSigs [] ++ dupSigs 0 K itemsA.length = []
    rw [dupSigs_below K itemsA.length 0 (by rw [hlenA]; omega)]
    rfl
  · rw [hB]
    show closeSigs [] ++ dupSigs 0 K itemsB.length = _
    have hlpos : 1 ≤ itemsB.length := by
      have h1 : (1 : Int) ≤ (itemsB.length : Int) := by
        rw [hlenB]
        omega
      exact_mod_cast h1
    rw [dupSigs_hit K itemsB.length 0 hlpos (by rw [hlenB]; ring)]
    rfl

/-- C2 amended witness: threshold 2, one then two duplicates. -/
theorem claim_C2_amended_witness :
    closeSigs (runItems ({} : Config) (initState {} 2)
        [[("a", Value.vInt 1)]] "sp" true 0).events = []
    ∧ closeSigs (runItems ({} : Config) (initState {} 2)
        [[("a", Value.vInt 1)], [("a", Value.vInt 1)]] "sp" true 0).events
        = ["Number of duplicate key insertion exceeded"] :=
  claim_C2_amended 2 {} [[("a", Value.vInt 1)]]
    [[("a", Value.vInt 1)], [("a", Value.vInt 1)]] "sp" 0 rfl rfl
    (by decide) (by decide) (by decide)

/-- One action of the host against the pipeline: a `process_item` call or
a `close_spider` call. -/
inductive Act where
  | procA : Record → String → Bool → Nat → Act
  | closeA : String → Bool → Act

/-- Apply one host action to the pipeline state. -/
def stepAct (cfg : Config) (st : PState) : Act → PState
  | .procA r sp dup now => (process_item cfg st r sp dup now).1
  | .closeA sp dup => (close_spider cfg st sp dup).1

/-- Run a whole sequence of host actions. -/
def runActs (cfg : Config) (st : PState) : List Act → PState
  | [] => st
  | a :: rest => runActs cfg (stepAct cfg st a) rest

/-- How a pipeline operation may move the index-creation state: it only
appends events, and it appends an index creation exactly when it flips
the `created_index` flag from unset to set. -/
def IdxStep (old new : PState) : Prop :=
  ∃ evs, new.events = old.events ++ evs ∧
    ((indexCount evs = 0 ∧ new.created_index = old.created_index) ∨
     (indexCount evs = 1 ∧ new.created_index = true
        ∧ old.created_index = false))

theorem IdxStep_refl (st : PState) : IdxStep st st :=
  ⟨[], by simp, Or.inl ⟨rfl, rfl⟩⟩

theorem IdxStep_trans {a b c : PState} (h1 : IdxStep a b) (h2 : IdxStep b c) :
    IdxStep a c := by
  obtain ⟨e1, he1, hc1⟩ := h1
  obtain ⟨e2, he2, hc2⟩ := h2
  refine ⟨e1 ++ e2, by rw [he2, he1, List.append_assoc], ?_⟩
  rcases hc1 with ⟨hz1, hf1⟩ | ⟨ho1, hb1, ha1⟩
  · rcases hc2 with ⟨hz2, hf2⟩ | ⟨ho2, hb2, ha2⟩
    · exact Or.inl ⟨by simp [indexCount_append, hz1, hz2], by rw [hf2, hf1]⟩
    · exact Or.inr ⟨by simp [indexCount_append, hz1, ho2], hb2, by rw [← hf1, ha2]⟩
  · rcases hc2 with ⟨hz2, hf2⟩ | ⟨ho2, hb2, ha2⟩
    · exact Or.inr ⟨by simp [indexCount_append, ho1, hz2], by rw [hf2, hb1], ha1⟩
    · rw [hb1] at ha2
      cases ha2
theorem IdxStep_same {old new : PState} (evs : List Event)
    (hev : new.events = old.events ++ evs) (hidx : indexCount evs = 0)
    (hflag : new.created_index = old.created_index) : IdxStep old new :=
  ⟨evs, hev, Or.inl ⟨hidx, hflag⟩⟩

theorem IdxStep_get (cfg : Config) (st : PState) (n : String) :
    IdxStep st (get_collection cfg st n).1 := by
  obtain ⟨cols, b, evs, h1, h2, -⟩ := get_collection_cases cfg st n
  refine ⟨evs, by rw [h1], ?_⟩
  rcases h2 with ⟨rfl, hb⟩ | ⟨cn, uk, rfl, hb, hold⟩
  · exact Or.inl ⟨rfl, by rw [h1, hb]⟩
  · exact Or.inr ⟨rfl, by rw [h1]; exact hb, hold⟩

theorem IdxStep_on_dup (st : PState) : IdxStep st (on_duplicate_key st) := by
  obtain ⟨d, evs, hEq, hevs⟩ := on_duplicate_key_cases st
  refine IdxStep_same evs (by rw [hEq]) ?_ (by rw [hEq])
  rcases hevs with rfl | rfl <;> rfl

theorem IdxStep_insert_one (cfg : Config) (st : PState) (item : Record)
    (sp : String) (dup : Bool) :
    IdxStep st (insert_one cfg st item sp dup).1 := by
  have hget := IdxStep_get cfg st sp
  rcases hgc : get_collection cfg st sp with ⟨st1, res⟩
  rw [hgc] at hget
  rcases res with e | ⟨cn, c⟩
  · have hres : insert_one cfg st item sp dup = (st1, some e) := by
      unfold insert_one
      rw [hgc]
    rw [hres]
    exact hget
  · rcases huk : cfg.unique_key with _ | uk
    · cases dup
      · have hres : insert_one cfg st item sp false =
            ({ st1 with
                events := st1.events ++ [Event.insertOneW c.name item] },
             none) := by
          unfold insert_one
          rw [hgc, huk]
          rfl
        rw [hres]
        exact IdxStep_trans hget
          (IdxStep_same [Event.insertOneW c.name item] rfl rfl rfl)
      · have hres : insert_one cfg st item sp true =
            (on_duplicate_key { st1 with
                events := st1.events ++ [Event.insertOneW c.name item] },
             none) := by
          unfold insert_one
          rw [hgc, huk]
          rfl
        rw [hres]
        exact IdxStep_trans
          (IdxStep_trans hget
            (@IdxStep_same st1
              { st1 with events := st1.events ++ [Event.insertOneW c.name item] }
              [Event.insertOneW c.name item] rfl rfl rfl))
          (IdxStep_on_dup _)
    · rcases hbf : buildFilter item (ukFields uk) with k | filt
      · have hres : insert_one cfg st item sp dup = (st1, some (.keyError k)) := by
          unfold insert_one
          rw [hgc, huk]
          simp only [hbf]
        rw [hres]
        exact hget
      · have hres : insert_one cfg st item sp dup =
            ({ st1 with
                events := st1.events ++ [Event.updateOneW c.name filt item] },
             none) := by
          unfold insert_one
          rw [hgc, huk]
          simp only [hbf]
        rw [hres]
        exact IdxStep_trans hget
          (IdxStep_same [Event.updateOneW c.name filt item] rfl rfl rfl)

theorem IdxStep_insert_one_each (cfg : Config) (sp : String) (dup : Bool) :
    ∀ (items : List Record) (st : PState),
      IdxStep st (insert_one_each cfg st items sp dup).1 := by
  intro items
  induction items with
  | nil => intro st; exact IdxStep_refl st
  | cons r rs ih =>
      intro st
      have h1 := IdxStep_insert_one cfg st r sp dup
      unfold insert_one_each
      rcases hins : insert_one cfg st r sp dup with ⟨st1, e?⟩
      rw [hins] at h1
      cases e?
      · exact IdxStep_trans h1 (ih st1)
      · exact h1

theorem IdxStep_insert_many (cfg : Config) (st : PState)
    (items : List Record) (sp : String) (dup : Bool) :
    IdxStep st (insert_many cfg st items sp dup).1 := by
  have hget := IdxStep_get cfg st sp
  rcases hgc : get_collection cfg st sp with ⟨st1, res⟩
  rw [hgc] at hget
  rcases res with e | ⟨cn, c⟩
  · have hres : insert_many cfg st items sp dup = (st1, some e) := by
      unfold insert_many
      rw [hgc]
    rw [hres]
    exact hget
  · rcases huk : cfg.unique_key with _ | uk
    · cases dup
      · have hres : insert_many cfg st items sp false =
            ({ st1 with
                events := st1.events ++ [Event.insertManyW c.name items] },
             none) := by
          unfold insert_many
          rw [hgc, huk]
          rfl
        rw [hres]
        exact IdxStep_trans hget
          (IdxStep_same [Event.insertManyW c.name items] rfl rfl rfl)
      · have hres : insert_many cfg st items sp true =
            (on_duplicate_key { st1 with
                events := st1.events ++ [Event.insertManyW c.name items] },
             none) := by
          unfold insert_many
          rw [hgc, huk]
          rfl
        rw [hres]
        exact IdxStep_trans
          (IdxStep_trans hget
            (@IdxStep_same st1
              { st1 with events := st1.events ++ [Event.insertManyW c.name items] }
              [Event.insertManyW c.name items] rfl rfl rfl))
          (IdxStep_on_dup _)
    · have hres : insert_many cfg st items sp dup =
          insert_one_each cfg st1 items sp dup := by
        unfold insert_many
        rw [hgc, huk]
      rw [hres]
      exact IdxStep_trans hget (IdxStep_insert_one_each cfg sp dup items st1)

theorem IdxStep_insert_item (cfg : Config) (st : PState) (arg : ItemOrList)
    (sp : String) (dup : Bool) :
    IdxStep st (insert_item cfg st arg sp dup).1 := by
  rcases arg with r | rs
  · exact IdxStep_insert_one cfg st r sp dup
  · exact IdxStep_insert_many cfg st rs sp dup

theorem IdxStep_process_item (cfg : Config) (st : PState) (item : Record)
    (sp : String) (dup : Bool) (now : Nat) :
    IdxStep st (process_item cfg st item sp dup now).1 := by
  unfold process_item
  by_cases hbuf : bufTruthy cfg.buffer = true
  · simp only [hbuf, if_true]
    by_cases hreach : bufReached (st.current_item + 1) cfg.buffer = true
    · simp only [hreach, if_true]
      set st2 : PState := { st with
        current_item := 0
        item_buffer := st.item_buffer ++ [shaped cfg item now] } with hst2
      have h2 : IdxStep st st2 := IdxStep_same [] (by simp) rfl rfl
      have h3 := IdxStep_insert_item cfg st2 (.many st2.item_buffer) sp dup
      rcases hins : insert_item cfg st2 (.many st2.item_buffer) sp dup
        with ⟨st3, e?⟩
      rw [hins] at h3
      have h4 : IdxStep st st3 := IdxStep_trans h2 h3
      cases e? <;>
        exact IdxStep_trans h4 (IdxStep_same [] (by simp) rfl rfl)
    · simp only [hreach]
      simp only [Bool.false_eq_true, if_false]
      exact IdxStep_same [] (by simp) rfl rfl
  · simp only [Bool.not_eq_true] at hbuf
    simp only [hbuf, Bool.false_eq_true, if_false]
    have h3 := IdxStep_insert_item cfg st (.one (shaped cfg item now)) sp dup
    rcases hins : insert_item cfg st (.one (shaped cfg item now)) sp dup
      with ⟨st1, e?⟩
    rw [hins] at h3
    cases e? <;> exact h3

theorem IdxStep_close (cfg : Config) (st : PState) (sp : String) (dup : Bool) :
    IdxStep st (close_spider cfg st sp dup).1 := by
  unfold close_spider
  by_cases hemp : st.item_buffer.isEmpty = true
  · simp only [hemp, if_true]
    exact IdxStep_refl st
  · simp only [Bool.not_eq_true] at hemp
    simp only [hemp, Bool.false_eq_true, if_false]
    exact IdxStep_insert_item cfg st (.many st.item_buffer) sp dup

theorem IdxStep_runActs (cfg : Config) :
    ∀ (acts : List Act) (st : PState), IdxStep st (runActs cfg st acts) := by
  intro acts
  induction acts with
  | nil => intro st; exact IdxStep_refl st
  | cons a rest ih =>
      intro st
      have h1 : IdxStep st (stepAct cfg st a) := by
        rcases a with ⟨r, sp, dup, now⟩ | ⟨sp, dup⟩
        · exact IdxStep_process_item cfg st r sp dup now
        · exact IdxStep_close cfg st sp dup
      exact IdxStep_trans h1 (ih (stepAct cfg st a))

/-- C4 amended: the `created_index` flag is per-pipeline, not
per-collection, so across any sequence of host actions (with or without
separate collections) the uniqueness constraint is issued at most once in
total — in particular at most once per collection handle, but *not* once
per distinct collection: after the first handle triggers it, later
distinct handles are written without the constraint (see the
counterexample). -/
theorem claim_C4_amended (cfg : Config) (K : Int) (acts : List Act) :
    indexCount (runActs cfg (initState cfg K) acts).events ≤ 1 := by
  obtain ⟨evs, hev, hc⟩ := IdxStep_runActs cfg acts (initState cfg K)
  rw [hev]
  show indexCount ([] ++ evs) ≤ 1
  rw [List.nil_append]
  rcases hc with ⟨hz, -⟩ | ⟨ho, -, -⟩
  · rw [hz]; omega
  · rw [ho]

theorem handleGet_mem {m : List (String × Handle)} {k : String} {h : Handle}
    (hm : handleGet m k = some h) : (k, h) ∈ m := by
  induction m with
  | nil => simp [handleGet] at hm
  | cons p rest ih =>
      rcases p with ⟨k', h'⟩
      by_cases hk : k' = k
      · rw [handleGet, if_pos hk] at hm
        subst hk
        cases hm
        exact List.mem_cons_self _ _
      · rw [handleGet, if_neg hk] at hm
        exact List.mem_cons_of_mem _ (ih hm)

theorem handleGet_append_miss {m : List (String × Handle)} {k : String}
    (h : Handle) (hm : handleGet m k = none) :
    handleGet (m ++ [(k, h)]) k = some h := by
  induction m with
  | nil => simp [handleGet]
  | cons p rest ih =>
      rcases p with ⟨k', h'⟩
      by_cases hk : k' = k
      · rw [handleGet, if_pos hk] at hm
        cases hm
      · rw [handleGet, if_neg hk] at hm
        simp only [List.cons_append, handleGet, if_neg hk]
        exact ih hm

/-- Well-formedness of the collections cache: every entry other than the
pre-seeded `'default'` one maps a source name to the handle of the
collection with exactly that name. -/
def cacheWF (st : PState) : Bool :=
  st.collections.all fun kh => kh.1 == "default" || kh.2 == Handle.mk kh.1

theorem get_collection_sep_snd (cfg : Config) (st : PState) (s : String)
    (c : Handle) (hsep : cfg.separate_collections = true)
    (hget : handleGet st.collections s = some c) :
    (get_collection cfg st s).2 = Except.ok (s, c) := by
  unfold get_collection
  simp only [hsep, if_true, hget]
  by_cases hidx : (ukTruthy cfg.unique_key && !st.created_index) = true
  · rcases huk : cfg.unique_key with _ | uk
    · rw [huk] at hidx
      simp [ukTruthy] at hidx
    · simp [hidx, huk]
      split <;> rfl
  · simp [hidx]

theorem get_collection_sep_snd_miss (cfg : Config) (st : PState) (s : String)
    (hsep : cfg.separate_collections = true)
    (hget : handleGet st.collections s = none) :
    (get_collection cfg st s).2 = Except.ok (s, Handle.mk s) := by
  unfold get_collection
  simp only [hsep, if_true, hget]
  by_cases hidx : (ukTruthy cfg.unique_key &&
      !({ st with collections := st.collections ++ [(s, Handle.mk s)] }
        : PState).created_index) = true
  · rcases huk : cfg.unique_key with _ | uk
    · rw [huk] at hidx
      simp [ukTruthy] at hidx
    · simp [hidx, huk]
      split <;> rfl
  · simp [hidx]

theorem get_collection_nonsep_snd (cfg : Config) (st : PState) (s : String)
    (hD : Handle) (hsep : cfg.separate_collections = false)
    (hdef : handleGet st.collections "default" = some hD) :
    (get_collection cfg st s).2 = Except.ok (cfg.collection, hD) := by
  unfold get_collection
  simp only [hsep, Bool.false_eq_true, if_false, hdef]
  by_cases hidx : (ukTruthy cfg.unique_key && !st.created_index) = true
  · rcases huk : cfg.unique_key with _ | uk
    · rw [huk] at hidx
      simp [ukTruthy] at hidx
    · simp [hidx, huk]
      split <;> rfl
  · simp [hidx]

/-- Routing the same source name twice in separate-collections mode is
idempotent: the second call changes nothing and returns the same cached
handle. -/
theorem get_collection_sep_idem (cfg : Config) (st : PState) (s : String)
    (hsep : cfg.separate_collections = true) :
    get_collection cfg (get_collection cfg st s).1 s =
      get_collection cfg st s := by
  rcases hget : handleGet st.collections s with _ | c
  · by_cases hidx : (ukTruthy cfg.unique_key && !st.created_index) = true
    · rcases huk : cfg.unique_key with _ | uk
      · rw [huk] at hidx
        simp [ukTruthy] at hidx
      · rw [huk, Bool.and_eq_true, Bool.not_eq_true'] at hidx
        have h1 : get_collection cfg st s =
            ({ st with
                collections := st.collections ++ [(s, Handle.mk s)]
                created_index := true
                events := st.events ++
                  [Event.createIndexW (Handle.mk s).name uk] },
             Except.ok (s, Handle.mk s)) := by
          unfold get_collection
          simp [hsep, hget, hidx.1, hidx.2, huk]
        rw [h1]
        unfold get_collection
        simp [hsep, handleGet_append_miss (Handle.mk s) hget, huk]
    · have h1 : get_collection cfg st s =
          ({ st with collections := st.collections ++ [(s, Handle.mk s)] },
           Except.ok (s, Handle.mk s)) := by
        unfold get_collection
        simp [hsep, hget, hidx]
      rw [h1]
      unfold get_collection
      simp only [hsep, if_true, handleGet_append_miss (Handle.mk s) hget]
      simp [hidx]
  · by_cases hidx : (ukTruthy cfg.unique_key && !st.created_index) = true
    · rcases huk : cfg.unique_key with _ | uk
      · rw [huk] at hidx
        simp [ukTruthy] at hidx
      · rw [huk, Bool.and_eq_true, Bool.not_eq_true'] at hidx
        have h1 : get_collection cfg st s =
            ({ st with
                created_index := true
                events := st.events ++ [Event.createIndexW c.name uk] },
             Except.ok (s, c)) := by
          unfold get_collection
          simp [hsep, hget, hidx.1, hidx.2, huk]
        rw [h1]
        unfold get_collection
        simp [hsep, hget, huk]
    · have h1 : get_collection cfg st s = (st, Except.ok (s, c)) := by
        unfold get_collection
        simp [hsep, hget, hidx]
      rw [h1]
      unfold get_collection
      simp only [hsep, if_true, hget]
      simp [hidx]

/-- C7 amended: with separate collections enabled, routing a source name
*other than the reserved cache key `'default'`* (under which the default
handle is pre-seeded at line 86) returns a handle bound to the collection
named exactly that source name; two distinct such names get distinct
collections; a repeated call changes nothing and returns the same cached
handle; and with separation disabled every call returns the single
default handle regardless of the source name.  For a source literally
named `'default'` the pre-seeded default handle is returned instead (see
the counterexample). -/
theorem claim_C7_amended (cfg cfgD : Config) (st stD : PState)
    (s s₂ sAny : String) (hD : Handle)
    (hsep : cfg.separate_collections = true)
    (hwf : cacheWF st = true)
    (hs : s ≠ "default") (hs₂ : s₂ ≠ "default") (hne : s ≠ s₂)
    (hsepD : cfgD.separate_collections = false)
    (hdefD : handleGet stD.collections "default" = some hD) :
    (get_collection cfg st s).2 = Except.ok (s, Handle.mk s)
    ∧ (get_collection cfg st s₂).2 = Except.ok (s₂, Handle.mk s₂)
    ∧ Handle.mk s ≠ Handle.mk s₂
    ∧ get_collection cfg (get_collection cfg st s).1 s = get_collection cfg st s
    ∧ (get_collection cfgD stD sAny).2 = Except.ok (cfgD.collection, hD) := by
  have hone : ∀ t, t ≠ "default" →
      (get_collection cfg st t).2 = Except.ok (t, Handle.mk t) := by
    intro t ht
    rcases hget : handleGet st.collections t with _ | c
    · exact get_collection_sep_snd_miss cfg st t hsep hget
    · have hmem := handleGet_mem hget
      have hwf' := hwf
      rw [cacheWF, List.all_eq_true] at hwf'
      have hc := hwf' (t, c) hmem
      simp only [Bool.or_eq_true, beq_iff_eq] at hc
      rcases hc with h1 | h2
      · exact absurd h1 ht
      · rw [h2] at hget
        exact get_collection_sep_snd cfg st t (Handle.mk t) hsep hget
  refine ⟨hone s hs, hone s₂ hs₂, ?_,
    get_collection_sep_idem cfg st s hsep,
    get_collection_nonsep_snd cfgD stD sAny hD hsepD hdefD⟩
  intro hcon
  exact hne (congrArg Handle.name hcon)

/-- C7 amended witness: sources `"a"` and `"b"` with separation enabled,
and an arbitrary source with separation disabled. -/
theorem claim_C7_amended_witness :
    (get_collection ({ separate_collections := true } : Config)
        (initState { separate_collections := true } 0) "a").2
      = Except.ok ("a", Handle.mk "a")
    ∧ (get_collection ({ separate_collections := true } : Config)
        (initState { separate_collections := true } 0) "b").2
      = Except.ok ("b", Handle.mk "b")
    ∧ Handle.mk "a" ≠ Handle.mk "b"
    ∧ get_collection ({ separate_collections := true } : Config)
        (get_collection ({ separate_collections := true } : Config)
          (initState { separate_collections := true } 0) "a").1 "a"
      = get_collection ({ separate_collections := true } : Config)
          (initState { separate_collections := true } 0) "a"
    ∧ (get_collection ({} : Config) (initState {} 0) "x").2
      = Except.ok (({} : Config).collection, Handle.mk "items") :=
  claim_C7_amended { separate_collections := true } {}
    (initState { separate_collections := true } 0) (initState {} 0)
    "a" "b" "x" (Handle.mk "items")
    rfl (by decide) (by decide) (by decide) (by decide) rfl (by decide)

/-- `get_collection` is idempotent: calling it again on the state it
produced, with the same name, changes nothing and returns the same
result. -/
theorem get_collection_idem (cfg : Config) (st : PState) (s : String) :
    get_collection cfg (get_collection cfg st s).1 s =
      get_collection cfg st s := by
  by_cases hsep : cfg.separate_collections = true
  · exact get_collection_sep_idem cfg st s hsep
  · simp only [Bool.not_eq_true] at hsep
    rcases hdef : handleGet st.collections "default" with _ | c
    · have h1 : get_collection cfg st s =
          (st, Except.error PyErr.assertionError) := by
        unfold get_collection
        simp [hsep, hdef]
      rw [h1]
      exact h1
    · by_cases hidx : (ukTruthy cfg.unique_key && !st.created_index) = true
      · rcases huk : cfg.unique_key with _ | uk
        · rw [huk] at hidx
          simp [ukTruthy] at hidx
        · rw [huk, Bool.and_eq_true, Bool.not_eq_true'] at hidx
          have h1 : get_collection cfg st s =
              ({ st with
                  created_index := true
                  events := st.events ++ [Event.createIndexW c.name uk] },
               Except.ok (cfg.collection, c)) := by
            unfold get_collection
            simp [hsep, hdef, hidx.1, hidx.2, huk]
          rw [h1]
          unfold get_collection
          simp [hsep, hdef, huk]
      · have h1 : get_collection cfg st s =
            (st, Except.ok (cfg.collection, c)) := by
          unfold get_collection
          simp [hsep, hdef, hidx]
        rw [h1]
        unfold get_collection
        simp [hsep, hdef, hidx]

/-- C9: when a unique key is configured, `_insert_many` on a (nonempty)
batch is literally the in-order fold of `_insert_one` over the batch,
one upsert per item, starting from the same state — the leading
`get_collection` of `_insert_many` is absorbed by the first
`_insert_one`'s own idempotent `get_collection`. -/
theorem claim_C9 (cfg : Config) (st : PState) (items : List Record)
    (sp : String) (dup : Bool) (uk : UKey)
    (hu : cfg.unique_key = some uk) (hne : items ≠ []) :
    insert_many cfg st items sp dup = insert_one_each cfg st items sp dup := by
  rcases items with _ | ⟨r, rs⟩
  · exact absurd rfl hne
  rcases hgc : get_collection cfg st sp with ⟨st1, res⟩
  rcases res with e | ⟨cn, c⟩
  · have h1 : insert_one cfg st r sp dup = (st1, some e) := by
      unfold insert_one
      rw [hgc]
    have hL : insert_many cfg st (r :: rs) sp dup = (st1, some e) := by
      unfold insert_many
      rw [hgc]
    have hR : insert_one_each cfg st (r :: rs) sp dup = (st1, some e) := by
      unfold insert_one_each
      rw [h1]
    rw [hL, hR]
  · have hL : insert_many cfg st (r :: rs) sp dup =
        insert_one_each cfg st1 (r :: rs) sp dup := by
      unfold insert_many
      rw [hgc, hu]
    have hidem := get_collection_idem cfg st sp
    rw [hgc] at hidem
    have hstep : insert_one cfg st r sp dup = insert_one cfg st1 r sp dup := by
      unfold insert_one
      rw [hgc, hidem]
    rw [hL]
    unfold insert_one_each
    rw [hstep]

/-- C9 witness: a two-item batch against a configured single-field
unique key. -/
theorem claim_C9_witness :
    insert_many ({ unique_key := some (.single "k") } : Config)
        (initState { unique_key := some (.single "k") } 0)
        [[("k", Value.vInt 1)], [("k", Value.vInt 2)]] "sp" false
      = insert_one_each ({ unique_key := some (.single "k") } : Config)
          (initState { unique_key := some (.single "k") } 0)
          [[("k", Value.vInt 1)], [("k", Value.vInt 2)]] "sp" false :=
  claim_C9 { unique_key := some (.single "k") }
    (initState { unique_key := some (.single "k") } 0)
    [[("k", Value.vInt 1)], [("k", Value.vInt 2)]] "sp" false
    (.single "k") rfl (by decide)

theorem buildFilter_ok (item : Record) : ∀ (ks : List String),
    (∀ k ∈ ks, (dictGet item k).isSome) →
    buildFilter item ks =
      .ok (ks.map fun k => (k, (dictGet item k).getD Value.vNone)) := by
  intro ks
  induction ks with
  | nil => intro _; rfl
  | cons k rest ih =>
      intro h
      have hk := h k (List.mem_cons_self _ _)
      rcases hgk : dictGet item k with _ | v
      · rw [hgk] at hk
        simp at hk
      · rw [buildFilter, hgk,
          ih (fun k' hk' => h k' (List.mem_cons_of_mem _ hk'))]
        simp [hgk]

theorem buildFilter_absent (item : Record) : ∀ (ks : List String),
    (∃ k ∈ ks, dictGet item k = none) →
    ∃ k', buildFilter item ks = .error k'
      ∧ dictGet item k' = none ∧ k' ∈ ks := by
  intro ks
  induction ks with
  | nil =>
      rintro ⟨k, hk, -⟩
      simp at hk
  | cons k rest ih =>
      rintro ⟨k0, hk0mem, hk0⟩
      rcases hgk : dictGet item k with _ | v
      · exact ⟨k, by rw [buildFilter, hgk], hgk, List.mem_cons_self _ _⟩
      · have hk0rest : k0 ∈ rest := by
          rcases List.mem_cons.mp hk0mem with rfl | h
          · rw [hgk] at hk0
            cases hk0
          · exact h
        obtain ⟨k', hbf, hnone, hmem⟩ := ih ⟨k0, hk0rest, hk0⟩
        refine ⟨k', ?_, hnone, List.mem_cons_of_mem _ hmem⟩
        rw [buildFilter, hgk, hbf]

/-- C10: with a unique key configured, `_insert_one` builds the upsert
filter by direct indexing `item[k]`: if some configured key field is
absent from the (shaped) record, a `KeyError` escapes and no write is
performed; if every key field is present, the upsert is issued with the
filter mapping each distinct key field to the record's value. -/
theorem claim_C10 (cfg : Config) (st : PState) (item : Record)
    (sp : String) (dup : Bool) (uk : UKey)
    (hu : cfg.unique_key = some uk)
    (hdef : handleGet st.collections "default" ≠ none) :
    ((∃ k ∈ ukFields uk, dictGet item k = none) →
      (∃ k', (insert_one cfg st item sp dup).2 = some (PyErr.keyError k')
        ∧ dictGet item k' = none ∧ k' ∈ ukFields uk)
      ∧ writes (insert_one cfg st item sp dup).1.events = writes st.events)
    ∧ ((∀ k ∈ ukFields uk, (dictGet item k).isSome) →
      ∃ cn c, (get_collection cfg st sp).2 = Except.ok (cn, c)
        ∧ insert_one cfg st item sp dup =
            ({ (get_collection cfg st sp).1 with
                events := (get_collection cfg st sp).1.events ++
                  [Event.updateOneW c.name
                    ((ukFields uk).map fun k =>
                      (k, (dictGet item k).getD Value.vNone)) item] },
             none)) := by
  obtain ⟨cn, c, hok⟩ := get_collection_ok cfg st sp hdef
  obtain ⟨-, -, -, -, -, -, fw⟩ := get_collection_fields cfg st sp
  have hpair : get_collection cfg st sp =
      ((get_collection cfg st sp).1, Except.ok (cn, c)) := by
    rw [← hok]
  constructor
  · intro habs
    obtain ⟨k', hbf, hnone, hmem⟩ := buildFilter_absent item (ukFields uk) habs
    have hres : insert_one cfg st item sp dup =
        ((get_collection cfg st sp).1, some (PyErr.keyError k')) := by
      unfold insert_one
      rw [hpair, hu]
      simp only [hbf]
    rw [hres]
    exact ⟨⟨k', rfl, hnone, hmem⟩, fw⟩
  · intro hall
    have hbf := buildFilter_ok item (ukFields uk) hall
    refine ⟨cn, c, hok, ?_⟩
    unfold insert_one
    rw [hpair, hu]
    simp only [hbf]

/-- C10 witness: single unique key `"k"`; one record missing it, one
record carrying it. -/
theorem claim_C10_witness :
    ((∃ k', (insert_one ({ unique_key := some (.single "k") } : Config)
          (initState { unique_key := some (.single "k") } 0)
          [("z", Value.vInt 1)] "sp" false).2 = some (PyErr.keyError k')
        ∧ dictGet [("z", Value.vInt 1)] k' = none
        ∧ k' ∈ ukFields (.single "k"))
      ∧ writes (insert_one ({ unique_key := some (.single "k") } : Config)
          (initState { unique_key := some (.single "k") } 0)
          [("z", Value.vInt 1)] "sp" false).1.events
        = writes (initState { unique_key := some (.single "k") } 0).events)
    ∧ (∃ cn c, (get_collection ({ unique_key := some (.single "k") } : Config)
          (initState { unique_key := some (.single "k") } 0) "sp").2
          = Except.ok (cn, c)
        ∧ insert_one ({ unique_key := some (.single "k") } : Config)
            (initState { unique_key := some (.single "k") } 0)
            [("k", Value.vInt 5)] "sp" false =
            ({ (get_collection ({ unique_key := some (.single "k") } : Config)
                  (initState { unique_key := some (.single "k") } 0) "sp").1 with
                events := (get_collection
                    ({ unique_key := some (.single "k") } : Config)
                    (initState { unique_key := some (.single "k") } 0)
                    "sp").1.events ++
                  [Event.updateOneW c.name
                    ((ukFields (.single "k")).map fun k =>
                      (k, (dictGet [("k", Value.vInt 5)] k).getD Value.vNone))
                    [("k", Value.vInt 5)]] },
             none)) :=
  ⟨(claim_C10 { unique_key := some (.single "k") }
      (initState { unique_key := some (.single "k") } 0)
      [("z", Value.vInt 1)] "sp" false (.single "k") rfl (by decide)).1
      (by decide),
   (claim_C10 { unique_key := some (.single "k") }
      (initState { unique_key := some (.single "k") } 0)
      [("k", Value.vInt 5)] "sp" false (.single "k") rfl (by decide)).2
      (by decide)⟩

end ScrapyMongo
